import Mathlib

/-!
Verification of the core of the Cratejoy→Shopify migrator: the paginated
collectors (`src/utils/customers.py`, `src/utils/orders.py`), the API
clients (`src/utils/cratejoy_client.py`, `src/utils/shopify_client.py`),
the adaptive rate limiter (`src/utils/rate_limiter.py`), the audit tool
(`src/utils/audit_tool.py`) and the migration orchestrator
(`src/utils/shopify_migrator.py`), shallowly embedded as executable Lean
functions. External effects (the HTTP APIs, the database commit, the stop
callback) are passed in as explicit oracles; the staging table is a list
of rows threaded through the loops.
-/

namespace CratejoyMigrator

/-! ## Staging store

`cratejoy_customers` rows and the upsert executed inside
`CustomerCollector._process_customer_batch` (src/utils/customers.py):
`INSERT ... ON CONFLICT (cratejoy_id) DO UPDATE SET raw_data, email,
fetched_at` — replace the payload, email and timestamp of the row keyed
by `cratejoy_id` when one exists, otherwise insert a fresh row.
`fetched_at = NOW()` is modelled as an explicit timestamp argument. -/

structure CustomerRow where
  cid : ℕ
  email : String
  data : String
  fetched_at : ℕ
  deriving DecidableEq, Repr

/-- The `ON CONFLICT (cratejoy_id) DO UPDATE` upsert of
`_process_customer_batch`: replace payload/email/timestamp of the existing
row for `cid`, else append a new row. -/
def upsert (store : List CustomerRow) (cid : ℕ) (email data : String) (t : ℕ) :
    List CustomerRow :=
  if store.any (fun r => r.cid == cid) then
    store.map (fun r => if r.cid = cid then ⟨cid, email, data, t⟩ else r)
  else
    store ++ [⟨cid, email, data, t⟩]

/-- The database's PRIMARY KEY / UNIQUE constraint on `cratejoy_id`. -/
def StoreWF (store : List CustomerRow) : Prop :=
  (store.map CustomerRow.cid).Nodup

/-- The rows a `SELECT ... WHERE cratejoy_id = cid` would return. -/
def rowsFor (store : List CustomerRow) (cid : ℕ) : List CustomerRow :=
  store.filter (fun r => r.cid == cid)

lemma upsert_of_not_mem (store : List CustomerRow) (cid : ℕ) (email data : String)
    (t : ℕ) (h : ∀ r ∈ store, r.cid ≠ cid) :
    upsert store cid email data t = store ++ [⟨cid, email, data, t⟩] := by
  unfold upsert
  rw [if_neg]
  simp only [List.any_eq_true, beq_iff_eq, not_exists]
  intro r hr
  exact h r hr.1 hr.2

lemma upsert_map_cid_of_mem (store : List CustomerRow) (cid : ℕ) (email data : String)
    (t : ℕ) :
    (store.map (fun r => if r.cid = cid then (⟨cid, email, data, t⟩ : CustomerRow)
      else r)).map CustomerRow.cid = store.map CustomerRow.cid := by
  rw [List.map_map]
  apply List.map_congr_left
  intro r _
  simp only [Function.comp_apply]
  split_ifs with h
  · exact h.symm
  · rfl

lemma rowsFor_eq_nil (store : List CustomerRow) (cid : ℕ)
    (h : ∀ r ∈ store, r.cid ≠ cid) : rowsFor store cid = [] := by
  unfold rowsFor
  rw [List.filter_eq_nil_iff]
  intro r hr
  simp only [beq_iff_eq]
  exact h r hr

lemma rowsFor_upsert (store : List CustomerRow) (cid : ℕ) (email data : String)
    (t : ℕ) (hwf : StoreWF store) :
    rowsFor (upsert store cid email data t) cid = [⟨cid, email, data, t⟩] := by
  induction store with
  | nil =>
    simp [upsert, rowsFor]
  | cons r rs ih =>
    have hwf' : StoreWF rs := by
      unfold StoreWF at hwf ⊢
      exact (List.nodup_cons.mp hwf).2
    by_cases hr : r.cid = cid
    · -- the head row is the conflicting row: the map branch fires and
      -- rewrites it; no other row can carry `cid` by uniqueness
      have hnot : ∀ x ∈ rs, x.cid ≠ cid := by
        intro x hx hc
        unfold StoreWF at hwf
        have := (List.nodup_cons.mp hwf).1
        exact this (hr ▸ (hc ▸ List.mem_map_of_mem CustomerRow.cid hx))
      have hmap : rs.map (fun x => if x.cid = cid then
          (⟨cid, email, data, t⟩ : CustomerRow) else x) = rs := by
        conv_rhs => rw [← List.map_id rs]
        apply List.map_congr_left
        intro x hx
        rw [if_neg (hnot x hx)]
        rfl
      have h0 := rowsFor_eq_nil rs cid hnot
      unfold rowsFor at h0
      unfold upsert
      rw [if_pos]
      · simp only [List.map_cons, if_pos hr, hmap]
        unfold rowsFor
        rw [List.filter_cons_of_pos (by simp), h0]
      · simp [List.any_cons, hr]
    · -- the head row does not match: it is untouched and filtered out
      by_cases hany : rs.any (fun x => x.cid == cid)
      · have hany' : (r :: rs).any (fun x => x.cid == cid) = true := by
          simp [List.any_cons, hany]
        have hup : upsert rs cid email data t = rs.map (fun x =>
            if x.cid = cid then (⟨cid, email, data, t⟩ : CustomerRow) else x) := by
          unfold upsert
          rw [if_pos hany]
        unfold upsert
        rw [if_pos hany']
        simp only [List.map_cons, if_neg hr]
        unfold rowsFor
        rw [List.filter_cons_of_neg (by simp [hr])]
        have := ih hwf'
        rw [hup] at this
        exact this
      · have hany' : ¬ (r :: rs).any (fun x => x.cid == cid) = true := by
          simp only [List.any_cons, Bool.or_eq_true, beq_iff_eq]
          push_neg
          refine ⟨hr, ?_⟩
          simpa using hany
        have hup : upsert rs cid email data t = rs ++ [⟨cid, email, data, t⟩] := by
          unfold upsert
          rw [if_neg hany]
        unfold upsert
        rw [if_neg hany']
        show rowsFor ((r :: rs) ++ [⟨cid, email, data, t⟩]) cid = _
        unfold rowsFor
        rw [List.cons_append, List.filter_cons_of_neg (by simp [hr])]
        have := ih hwf'
        rw [hup] at this
        exact this

lemma upsert_wf (store : List CustomerRow) (cid : ℕ) (email data : String)
    (t : ℕ) (hwf : StoreWF store) : StoreWF (upsert store cid email data t) := by
  unfold upsert
  split_ifs with hany
  · unfold StoreWF
    rw [upsert_map_cid_of_mem]
    exact hwf
  · unfold StoreWF at hwf ⊢
    rw [List.map_append]
    simp only [List.map_cons, List.map_nil]
    rw [List.nodup_append]
    refine ⟨hwf, List.nodup_singleton _, ?_⟩
    intro x hx
    simp only [List.mem_singleton]
    intro hc
    subst hc
    simp only [List.any_eq_true, beq_iff_eq] at hany
    obtain ⟨r, hr, hrc⟩ := List.mem_map.mp hx
    exact hany ⟨r, hr, hrc⟩

/-! ## Adaptive rate limiter

`AdaptiveRateLimiter` (src/utils/rate_limiter.py): `current_rate` starts at
the constructor argument, `min_rate = 0.1`, `max_rate = 10.0`.
`on_success` multiplies by 1.1 capped at `max_rate`; `on_rate_limit_error`
with a truthy `retry_after` sets the rate to `1 / retry_after` (no clamp),
otherwise halves floored at `min_rate`; `on_error` multiplies by 0.8
floored at `min_rate`. Python floats are modelled as exact rationals. -/

def min_rate : ℚ := 1 / 10

def max_rate : ℚ := 10

/-- One adaptive-limiter callback: `on_success`, `on_rate_limit_error`
(with the optional `retry_after` argument), or `on_error`. -/
inductive RLEvent where
  | success : RLEvent
  | rateLimited : Option ℕ → RLEvent
  | error : RLEvent
  deriving DecidableEq, Repr

/-- The new `current_rate` after one callback. `if retry_after:` in Python
treats `None` and `0` alike (falsy), so `some 0` takes the halving branch. -/
def rl_step (r : ℚ) : RLEvent → ℚ
  | .success => min max_rate (r * (11 / 10))
  | .rateLimited (some n) =>
      if n = 0 then max min_rate (r * (1 / 2)) else 1 / (n : ℚ)
  | .rateLimited none => max min_rate (r * (1 / 2))
  | .error => max min_rate (r * (4 / 5))

/-- `current_rate` after a finite sequence of callbacks. -/
def rl_run (r : ℚ) (es : List RLEvent) : ℚ :=
  es.foldl rl_step r

/-- An event that does not carry a server-supplied (truthy) retry-after. -/
def rl_no_retry_after : RLEvent → Bool
  | .rateLimited (some n) => n == 0
  | _ => true

lemma rl_step_ge_min (r : ℚ) (e : RLEvent) (he : rl_no_retry_after e = true)
    (hr : min_rate ≤ r) : min_rate ≤ rl_step r e := by
  cases e with
  | success =>
    unfold rl_step
    apply le_min
    · unfold min_rate max_rate
      norm_num
    · calc min_rate ≤ r := hr
        _ ≤ r * (11 / 10) := by
          nlinarith [lt_of_lt_of_le (by norm_num [min_rate] : (0 : ℚ) < min_rate) hr]
  | rateLimited o =>
    cases o with
    | none => exact le_max_left _ _
    | some n =>
      unfold rl_no_retry_after at he
      simp only [beq_iff_eq] at he
      simp only [rl_step]
      rw [if_pos he]
      exact le_max_left _ _
  | error => exact le_max_left _ _

lemma rl_step_pos (r : ℚ) (e : RLEvent) (hr : 0 < r) : 0 < rl_step r e := by
  cases e with
  | success =>
    unfold rl_step
    apply lt_min
    · unfold max_rate; norm_num
    · nlinarith
  | rateLimited o =>
    cases o with
    | none =>
      exact lt_of_lt_of_le (by norm_num [min_rate]) (le_max_left _ _)
    | some n =>
      simp only [rl_step]
      split_ifs with h
      · exact lt_of_lt_of_le (by norm_num [min_rate]) (le_max_left _ _)
      · have : (0 : ℚ) < (n : ℚ) := by
          exact_mod_cast Nat.pos_of_ne_zero h
        positivity
  | error =>
    exact lt_of_lt_of_le (by norm_num [min_rate]) (le_max_left _ _)

/-- C5: upserting the same natural id twice (a second collection pass)
leaves exactly one staging row for that id, carrying the payload and
timestamp of the later upsert; no duplicate row is created for an
existing natural id (key uniqueness is preserved). -/
theorem upsert_twice_single_row (store : List CustomerRow) (cid : ℕ)
    (e1 d1 e2 d2 : String) (t1 t2 : ℕ) (hwf : StoreWF store) :
    rowsFor (upsert (upsert store cid e1 d1 t1) cid e2 d2 t2) cid
        = [⟨cid, e2, d2, t2⟩] ∧
    StoreWF (upsert (upsert store cid e1 d1 t1) cid e2 d2 t2) :=
  ⟨rowsFor_upsert _ _ _ _ _ (upsert_wf _ _ _ _ _ hwf),
   upsert_wf _ _ _ _ _ (upsert_wf _ _ _ _ _ hwf)⟩

theorem upsert_twice_single_row_witness :
    StoreWF [⟨2, "b", "y", 0⟩] ∧
    (rowsFor (upsert (upsert [⟨2, "b", "y", 0⟩] 1 "a" "p1" 5) 1 "a" "p2" 9) 1
        = [⟨1, "a", "p2", 9⟩] ∧
     StoreWF (upsert (upsert [⟨2, "b", "y", 0⟩] 1 "a" "p1" 5) 1 "a" "p2" 9)) :=
  ⟨by unfold StoreWF; decide,
   upsert_twice_single_row [⟨2, "b", "y", 0⟩] 1 "a" "p1" "a" "p2" 5 9
     (by unfold StoreWF; decide)⟩

/-- C7 (as stated) is false: with a positive initial rate below the floor
(here 1/20 req/s) and a sequence containing no server retry-after, the
current rate stays below `min_rate` — the floor is only ever re-imposed by
the flooring branches, never restored for a start below it. -/
theorem rl_floor_counterexample :
    (0 : ℚ) < 1 / 20 ∧
    [RLEvent.success].all rl_no_retry_after = true ∧
    rl_run (1 / 20) [RLEvent.success] < min_rate := by
  refine ⟨by norm_num, by decide, ?_⟩
  simp only [rl_run, List.foldl_cons, List.foldl_nil, rl_step, min_rate, max_rate]
  rw [min_def]
  norm_num

/-- C7 (amended): for any sequence of `on_success`, `on_error`, and
`on_rate_limited` calls where no call supplies a truthy server
retry-after, the rate stays at or above `min_rate` provided the starting
rate is at least `min_rate`, and stays strictly positive from any
positive starting rate. -/
theorem rl_run_floor_and_positive (r : ℚ) (es : List RLEvent)
    (hall : es.all rl_no_retry_after = true) :
    (min_rate ≤ r → min_rate ≤ rl_run r es) ∧ (0 < r → 0 < rl_run r es) := by
  induction es generalizing r with
  | nil => exact ⟨fun h => h, fun h => h⟩
  | cons e tl ih =>
    simp only [List.all_cons, Bool.and_eq_true] at hall
    have h1 := ih (rl_step r e) hall.2
    simp only [rl_run, List.foldl_cons] at h1 ⊢
    constructor
    · intro hr
      exact h1.1 (rl_step_ge_min r e hall.1 hr)
    · intro hr
      exact h1.2 (rl_step_pos r e hr)

theorem rl_run_floor_and_positive_witness :
    [RLEvent.rateLimited none, RLEvent.rateLimited none,
      RLEvent.rateLimited none].all rl_no_retry_after = true ∧
    min_rate ≤ rl_run 2 [RLEvent.rateLimited none, RLEvent.rateLimited none,
      RLEvent.rateLimited none] :=
  ⟨by decide,
   (rl_run_floor_and_positive 2 [RLEvent.rateLimited none,
      RLEvent.rateLimited none, RLEvent.rateLimited none] (by decide)).1
     (by norm_num [min_rate])⟩

/-- C10: `on_rate_limit_error` with a positive `retry_after` sets the rate
to exactly `1 / retry_after` with no clamping, so any `retry_after`
greater than 10 seconds drives the rate strictly below `min_rate`. -/
theorem on_rate_limit_error_retry_after_exact (r : ℚ) (n : ℕ) (hn : 0 < n) :
    rl_step r (.rateLimited (some n)) = 1 / (n : ℚ) ∧
    (10 < n → rl_step r (.rateLimited (some n)) < min_rate) := by
  have hne : n ≠ 0 := Nat.pos_iff_ne_zero.mp hn
  constructor
  · simp [rl_step, hne]
  · intro h10
    simp only [rl_step, if_neg hne]
    unfold min_rate
    have hcast : (10 : ℚ) < (n : ℚ) := by exact_mod_cast h10
    rw [div_lt_div_iff₀ (by linarith) (by norm_num)]
    linarith

theorem on_rate_limit_error_retry_after_exact_witness :
    0 < 60 ∧
    (rl_step 2 (.rateLimited (some 60)) = 1 / ((60 : ℕ) : ℚ) ∧
     (10 < 60 → rl_step 2 (.rateLimited (some 60)) < min_rate)) :=
  ⟨by decide, on_rate_limit_error_retry_after_exact 2 60 (by decide)⟩

/-! ## API clients

`CratejoyClient._make_request` (src/utils/cratejoy_client.py) and
`ShopifyClient._make_request` (src/utils/shopify_client.py) share the
same retry structure: issue the HTTP call; on a 429-class response sleep
(60 s fixed, resp. the `Retry-After` header with default 2) and call
`_make_request` again recursively with the same arguments; return the
decoded body on success and raise on any other error. `resp i` is the
server's response to the (i+1)-th HTTP call for this logical request. -/

inductive HttpResp where
  /-- a 429 response; the optional payload is the server retry-after -/
  | rateLimited : Option ℕ → HttpResp
  /-- a success response -/
  | ok : HttpResp
  /-- a non-429 HTTP error (raised to the caller) -/
  | httpError : HttpResp
  deriving DecidableEq, Repr

def is_rate_limited : HttpResp → Bool
  | .rateLimited _ => true
  | _ => false

def resp_ok : HttpResp → Bool
  | .ok => true
  | _ => false

/-- The recursion of `_make_request`: the Python recursion is unbounded,
so it is given explicit `fuel`; `none` models nontermination within the
fuel bound. On a non-429 response the result is the total number of HTTP
calls issued and whether the final response succeeded (`false` = the
error is raised to the caller). -/
def make_request (resp : ℕ → HttpResp) : ℕ → ℕ → Option (ℕ × Bool)
  | 0, _ => none
  | fuel + 1, attempt =>
      match resp attempt with
      | .rateLimited _ => make_request resp fuel (attempt + 1)
      | .ok => some (attempt + 1, true)
      | .httpError => some (attempt + 1, false)

/-- A server that answers 429 to the first two calls and succeeds on the
third. -/
def respC4 : ℕ → HttpResp :=
  fun i => if i < 2 then .rateLimited none else .ok

/-- C4 (as stated) is false: against a server that returns 429 twice, the
client issues 3 HTTP calls for one logical request — two retries, not at
most one; the retry recursion is uncapped. -/
theorem make_request_counterexample :
    make_request respC4 10 0 = some (3, true) ∧ ¬ (3 : ℕ) ≤ 1 + 1 := by
  constructor
  · rfl
  · omega

lemma make_request_go (resp : ℕ → HttpResp) (k : ℕ) :
    ∀ (a fuel : ℕ), (∀ i, i < k → is_rate_limited (resp (a + i)) = true) →
    is_rate_limited (resp (a + k)) = false → k < fuel →
    make_request resp fuel a = some (a + k + 1, resp_ok (resp (a + k))) := by
  induction k with
  | zero =>
    intro a fuel _ hstop hfuel
    obtain ⟨f, rfl⟩ := Nat.exists_eq_succ_of_ne_zero (Nat.pos_iff_ne_zero.mp hfuel)
    simp only [Nat.add_zero] at hstop ⊢
    cases h : resp a with
    | rateLimited o => rw [h] at hstop; simp [is_rate_limited] at hstop
    | ok => simp [make_request, h, resp_ok]
    | httpError => simp [make_request, h, resp_ok]
  | succ k ih =>
    intro a fuel hrl hstop hfuel
    obtain ⟨f, rfl⟩ := Nat.exists_eq_succ_of_ne_zero
      (Nat.pos_iff_ne_zero.mp (Nat.lt_of_le_of_lt (Nat.zero_le _) hfuel))
    have h0 : is_rate_limited (resp a) = true := by
      have := hrl 0 (Nat.succ_pos k)
      simpa using this
    cases h : resp a with
    | rateLimited o =>
      simp only [make_request, h]
      have := ih (a + 1) f
        (fun i hi => by
          have := hrl (i + 1) (Nat.succ_lt_succ hi)
          simpa [Nat.add_assoc, Nat.add_comm 1 i] using this)
        (by
          have : a + 1 + k = a + (k + 1) := by omega
          rw [this]
          exact hstop)
        (Nat.lt_of_succ_lt_succ hfuel)
      rw [this]
      have heq : a + 1 + k = a + (k + 1) := by omega
      rw [heq]
    | ok => rw [h] at h0; simp [is_rate_limited] at h0
    | httpError => rw [h] at h0; simp [is_rate_limited] at h0

/-- C4 (amended): the client retries after every 429 response with no cap:
if the first `k` responses are 429s and the `(k+1)`-th is not, exactly
`k + 1` HTTP calls are issued (`k` retries) and the final non-429
response's outcome is surfaced; "at most one retry" holds only when the
server returns at most one consecutive 429. -/
theorem make_request_retries_every_429 (resp : ℕ → HttpResp) (k fuel : ℕ)
    (hrl : ∀ i, i < k → is_rate_limited (resp i) = true)
    (hstop : is_rate_limited (resp k) = false) (hfuel : k < fuel) :
    make_request resp fuel 0 = some (k + 1, resp_ok (resp k)) := by
  have := make_request_go resp k 0 fuel
    (fun i hi => by simpa using hrl i hi)
    (by simpa using hstop) hfuel
  simpa using this

/-- A server that answers 429 once, then a non-429 error. -/
def respC4W : ℕ → HttpResp :=
  fun i => if i = 0 then .rateLimited (some 2) else .httpError

theorem make_request_retries_every_429_witness :
    make_request respC4W 5 0 = some (1 + 1, resp_ok (respC4W 1)) :=
  make_request_retries_every_429 respC4W 1 5
    (fun i hi => by
      have : i = 0 := by omega
      subst this
      rfl)
    (by rfl) (by omega)

/-! ## Migration orchestrator

`ShopifyMigrator._migrate_single_customer` (src/utils/shopify_migrator.py):
in dry-run mode return success without any API call; otherwise map and
create the target customer (an exception anywhere in the body is caught by
the outer handler and the function returns `False`), add the migration tag
(failure logged only), then attempt `create_order` for every order in its
own try/except — a failing order is logged and skipped and the loop
continues — and finally create the subscription metafield (failure logged
only); the function then returns `True`. External call outcomes are passed
as oracles: `create_customer_ok`, `tag_ok`, `metafield_ok`, and
`order_ok o` for mapping+creating order `o`. -/

/-- The step-3 order loop: returns (orders attempted in order, number of
orders successfully created). -/
def migrate_orders_loop (order_ok : ℕ → Bool) (orders : List ℕ) :
    List ℕ × ℕ :=
  orders.foldl
    (fun acc o => (acc.1 ++ [o], if order_ok o then acc.2 + 1 else acc.2))
    ([], 0)

/-- `_migrate_single_customer`: returns (overall success, orders
attempted, orders migrated). `tag_ok` and `metafield_ok` are accepted but
cannot change the result — those failures are only logged. -/
def migrate_single_customer (dry_run : Bool) (create_customer_ok : Bool)
    (tag_ok metafield_ok : Bool) (order_ok : ℕ → Bool) (orders : List ℕ) :
    Bool × List ℕ × ℕ :=
  if dry_run then (true, [], 0)
  else if create_customer_ok then
    let _ := tag_ok
    let _ := metafield_ok
    let res := migrate_orders_loop order_ok orders
    (true, res.1, res.2)
  else (false, [], 0)

lemma migrate_orders_loop_go (order_ok : ℕ → Bool) (orders : List ℕ)
    (att : List ℕ) (mig : ℕ) :
    orders.foldl
        (fun acc o => (acc.1 ++ [o], if order_ok o then acc.2 + 1 else acc.2))
        (att, mig)
      = (att ++ orders, mig + (orders.filter order_ok).length) := by
  induction orders generalizing att mig with
  | nil => simp
  | cons o tl ih =>
    simp only [List.foldl_cons]
    rw [ih]
    by_cases h : order_ok o = true
    · rw [List.filter_cons_of_pos h]
      simp [h, List.append_assoc]
      omega
    · rw [List.filter_cons_of_neg h]
      simp only [h, if_false]
      simp [List.append_assoc]

/-- C1: whenever the target customer is created successfully (live run),
every owned order is attempted, in order; each order failure is skipped
without affecting later orders, the customer, or the unit outcome, and the
unit reports overall success with the count of orders that migrated.
In particular, with 3 orders where order #2 fails, the unit succeeds with
orders #1 and #3 both attempted and exactly 2 orders migrated. -/
theorem migrate_single_customer_isolation (tag_ok metafield_ok : Bool)
    (order_ok : ℕ → Bool) (orders : List ℕ) :
    migrate_single_customer false true tag_ok metafield_ok order_ok orders
      = (true, orders, (orders.filter order_ok).length) ∧
    migrate_single_customer false true tag_ok metafield_ok
        (fun o => !(o == 2)) [1, 2, 3]
      = (true, [1, 2, 3], 2) := by
  constructor
  · simp only [migrate_single_customer, migrate_orders_loop, if_true,
      Bool.false_eq_true, if_false]
    rw [migrate_orders_loop_go]
    simp
  · rfl

/-! ## Paginated collector

`CustomerCollector.collect_customers` / `_process_customer_batch` /
`_parse_next_page` (src/utils/customers.py; `OrderCollector` in
src/utils/orders.py is structurally identical). The Cratejoy API and the
database commit are oracles: `api page = none` models `get_customers`
raising a transport error, `api page = some (results, next)` a decoded
response; `commit page` tells whether the batch commit for that page's
transaction succeeds; `stop iter` is the `stop_callback` polled at the
top of each loop iteration. Timestamps (`NOW()`) are the iteration
index. -/

/-- One record of an API page: `customer.get('id')` may be absent. -/
structure Customer where
  id : Option ℕ
  email : String
  data : String
  deriving DecidableEq, Repr

/-- `_process_customer_batch`: loop over the page's records — a record
whose id is missing or `0` (`if not customer_id:` is Python-falsy for
both) is counted failed and skipped, every other record is upserted —
then commit. A commit failure rolls the whole batch back (the returned
control flow carries no store update) and re-raises. -/
def process_customer_batch (store : List CustomerRow) (t : ℕ)
    (customers : List Customer) (commit_ok : Bool) :
    Except Unit (List CustomerRow × ℕ × ℕ) :=
  let folded := customers.foldl
    (fun acc c =>
      match c.id with
      | none => (acc.1, acc.2.1, acc.2.2 + 1)
      | some cid =>
          if cid = 0 then (acc.1, acc.2.1, acc.2.2 + 1)
          else (upsert acc.1 cid c.email c.data t, acc.2.1 + 1, acc.2.2))
    (store, 0, 0)
  if commit_ok then .ok folded else .error ()

/-- The characters after the first occurrence of `sep`, or `none` when
`sep` does not occur (`'page=' in next_page_info` plus
`split('page=')[1]`). -/
def after_first (sep : List Char) : List Char → Option (List Char)
  | [] => none
  | c :: cs =>
      if sep.isPrefixOf (c :: cs) then some ((c :: cs).drop sep.length)
      else after_first sep cs

/-- The characters before the first occurrence of `sep` (the rest of
`split`'s segment semantics: `[1]` ends at the next separator, and
`.split('&')[0]` ends at the first `&`). -/
def up_to_first (sep : List Char) : List Char → List Char
  | [] => []
  | c :: cs =>
      if sep.isPrefixOf (c :: cs) then []
      else c :: up_to_first sep cs

/-- Python's `int()` on a digit string (the non-digit cases `int` accepts,
such as signs or surrounding whitespace, never parse as a page number the
fallback would differ on in this code path). -/
def digits_to_nat (l : List Char) : Option ℕ :=
  if l.isEmpty then none
  else if l.all Char.isDigit then
    some (l.foldl (fun n c => n * 10 + (c.toNat - 48)) 0)
  else none

/-- `_parse_next_page`: if the literal `page=` occurs in the `next` link,
parse the integer between the first `page=` and the following `&` (or the
next `page=`); on a parse failure, or when `page=` does not occur, fall
back to `current_page + 1`. -/
def parse_next_page (next_info : String) (current_page : ℕ) : ℕ :=
  match after_first "page=".toList next_info.toList with
  | none => current_page + 1
  | some rest =>
      let segment := up_to_first "page=".toList rest
      match digits_to_nat (up_to_first "&".toList segment) with
      | some n => n
      | none => current_page + 1

/-- The structured summary `collect_customers` returns, plus the staging
store it leaves behind. -/
structure CollectResult where
  store : List CustomerRow
  collected : ℕ
  failed : ℕ
  final_page : ℕ
  deriving DecidableEq, Repr

/-- The `while` loop of `collect_customers`. `fuel` bounds the number of
iterations (the Python loop is unbounded); `none` means the loop did not
finish within the fuel. On a transport error — or on the commit error
re-raised by `_process_customer_batch`, which the same `except` clause
catches — the requested `batch_size` is counted failed, the page number
is incremented, and the run breaks out when
`current_page - start_page > 10`. An empty page or an absent `next`
field ends the run normally. -/
def collect_go (api : ℕ → Option (List Customer × Option String))
    (commit : ℕ → Bool) (stop : ℕ → Bool) (batch_size start_page : ℕ) :
    ℕ → ℕ → ℕ → ℕ → ℕ → List CustomerRow → Option CollectResult
  | 0, _, _, _, _, _ => none
  | fuel + 1, iter, page, collected, failed, store =>
    if stop iter then some ⟨store, collected, failed, page⟩
    else
      match api page with
      | none =>
          if 10 < page + 1 - start_page then
            some ⟨store, collected, failed + batch_size, page + 1⟩
          else
            collect_go api commit stop batch_size start_page fuel (iter + 1)
              (page + 1) collected (failed + batch_size) store
      | some (customers, next) =>
          if customers.isEmpty then some ⟨store, collected, failed, page⟩
          else
            match process_customer_batch store iter customers (commit page) with
            | .error _ =>
                if 10 < page + 1 - start_page then
                  some ⟨store, collected, failed + batch_size, page + 1⟩
                else
                  collect_go api commit stop batch_size start_page fuel
                    (iter + 1) (page + 1) collected (failed + batch_size) store
            | .ok (store', bc, bf) =>
                match next with
                | none => some ⟨store', collected + bc, failed + bf, page⟩
                | some s =>
                    collect_go api commit stop batch_size start_page fuel
                      (iter + 1) (parse_next_page s page) (collected + bc)
                      (failed + bf) store'

/-- `collect_customers(batch_size, start_page, ...)`. -/
def collect_customers (fuel : ℕ)
    (api : ℕ → Option (List Customer × Option String)) (commit : ℕ → Bool)
    (stop : ℕ → Bool) (batch_size start_page : ℕ) (store : List CustomerRow) :
    Option CollectResult :=
  collect_go api commit stop batch_size start_page fuel 0 start_page 0 0 store

/-- Decimal rendering of a page number below 100, for building test
`next` links by kernel-reducible means. -/
def nat_str (n : ℕ) : String :=
  if n < 10 then String.mk [Char.ofNat (48 + n)]
  else String.mk [Char.ofNat (48 + n / 10 % 10), Char.ofNat (48 + n % 10)]

/-- A source where pages 0–10 and 12–20 each hold one customer, page 11
raises a transport error, and page 21 is empty. -/
def apiC2 : ℕ → Option (List Customer × Option String) :=
  fun p =>
    if p = 11 then none
    else if 21 ≤ p then some ([], none)
    else some ([⟨some (100 + p), "e", "d"⟩], some ("page=" ++ nat_str (p + 1)))

/-- C2 (as stated) is false: against `apiC2` the run suffers exactly one
page failure (page 11 — never more than 10 consecutive), yet it is
aborted: it ends at `final_page = 12` with 11 records collected although
page 12 still has data. The abort condition is
`current_page - start_page > 10` — distance from the start page — not a
consecutive-failure count. -/
theorem collect_distance_abort_counterexample :
    (collect_customers 40 apiC2 (fun _ => true) (fun _ => false) 5 0 []).map
        (fun r => (r.collected, r.failed, r.final_page)) = some (11, 5, 12) ∧
    apiC2 11 = none ∧ apiC2 10 ≠ none ∧ apiC2 12 ≠ none := by
  refine ⟨?_, by decide, by decide, by decide⟩
  rfl

/-- C2 (amended): when a page fetch raises a transport error the loop
counts the whole requested `batch_size` as failed and advances to
`page + 1`; it then aborts exactly when the new page lies more than 10
pages past `start_page` (`current_page - start_page > 10`) — regardless
of how many of the intervening pages succeeded — and otherwise continues
with the next page. -/
theorem collect_transport_error_step
    (api : ℕ → Option (List Customer × Option String)) (commit : ℕ → Bool)
    (stop : ℕ → Bool) (batch_size start_page fuel iter page collected failed : ℕ)
    (store : List CustomerRow) (hstop : stop iter = false)
    (herr : api page = none) :
    (10 < page + 1 - start_page →
      collect_go api commit stop batch_size start_page (fuel + 1) iter page
          collected failed store
        = some ⟨store, collected, failed + batch_size, page + 1⟩) ∧
    (¬ 10 < page + 1 - start_page →
      collect_go api commit stop batch_size start_page (fuel + 1) iter page
          collected failed store
        = collect_go api commit stop batch_size start_page fuel (iter + 1)
            (page + 1) collected (failed + batch_size) store) := by
  constructor
  · intro h
    simp [collect_go, hstop, herr, h]
  · intro h
    simp [collect_go, hstop, herr, h]

theorem collect_transport_error_step_witness :
    ((fun _ : ℕ => false) 0 = false) ∧
    ((fun _ : ℕ => (none : Option (List Customer × Option String))) 11 = none) ∧
    (10 < 11 + 1 - 0 →
      collect_go (fun _ => none) (fun _ => true) (fun _ => false) 5 0 (0 + 1) 0
          11 7 3 [] = some ⟨[], 7, 3 + 5, 11 + 1⟩) :=
  ⟨rfl, rfl,
   (collect_transport_error_step (fun _ => none) (fun _ => true) (fun _ => false)
      5 0 0 0 11 7 3 [] rfl rfl).1⟩

/-- A source with one-record pages 0 and 1; the staging commit fails for
the page-0 batch and succeeds for page 1, whose response has no `next`. -/
def apiC3 : ℕ → Option (List Customer × Option String) :=
  fun p =>
    if p = 0 then some ([⟨some 42, "a", "d42"⟩], some "page=1")
    else some ([⟨some 43, "b", "d43"⟩], none)

/-- C3 (as stated) is false: with the page-0 batch commit failing, the
collection run returns normally (`some …`, no error reaches its caller)
and continues to page 1, whose record it commits — the final store holds
only the page-1 row (page 0 was rolled back) and the run reports
`collected = 1, failed = 5 (the requested batch size), final_page = 1`. -/
theorem collect_commit_failure_counterexample :
    collect_customers 10 apiC3 (fun p => p ≠ 0) (fun _ => false) 5 0 []
        = some ⟨[⟨43, "b", "d43", 1⟩], 1, 5, 1⟩ ∧
    (fun p : ℕ => decide (p ≠ 0)) 0 = false := by
  refine ⟨?_, by decide⟩
  rfl

/-- C3 (amended): a batch-commit failure rolls the whole batch back
(`process_customer_batch` returns an error and the store is left
unchanged) and the error is re-raised out of the batch processor — but
the collection loop's own `except` clause catches it: the loop counts the
requested `batch_size` as failed, advances to the next page, and
continues (or stops, under the same distance-from-start condition as a
transport error); the error is never propagated out of the collection
run. -/
theorem collect_commit_failure_step
    (api : ℕ → Option (List Customer × Option String)) (commit : ℕ → Bool)
    (stop : ℕ → Bool) (batch_size start_page fuel iter page collected failed : ℕ)
    (store : List CustomerRow) (customers : List Customer)
    (next : Option String) (hstop : stop iter = false)
    (hapi : api page = some (customers, next))
    (hne : customers.isEmpty = false) (hcommit : commit page = false) :
    process_customer_batch store iter customers (commit page)
        = Except.error () ∧
    (10 < page + 1 - start_page →
      collect_go api commit stop batch_size start_page (fuel + 1) iter page
          collected failed store
        = some ⟨store, collected, failed + batch_size, page + 1⟩) ∧
    (¬ 10 < page + 1 - start_page →
      collect_go api commit stop batch_size start_page (fuel + 1) iter page
          collected failed store
        = collect_go api commit stop batch_size start_page fuel (iter + 1)
            (page + 1) collected (failed + batch_size) store) := by
  refine ⟨by simp [process_customer_batch, hcommit], ?_, ?_⟩
  · intro h
    simp [collect_go, hstop, hapi, hne, hcommit, process_customer_batch, h]
  · intro h
    simp [collect_go, hstop, hapi, hne, hcommit, process_customer_batch, h]

theorem collect_commit_failure_step_witness :
    process_customer_batch [] 0 [⟨some 42, "a", "d42"⟩] ((fun _ : ℕ => false) 0)
        = Except.error () ∧
    (¬ 10 < 0 + 1 - 0 →
      collect_go apiC3 (fun _ => false) (fun _ => false) 5 0 (3 + 1) 0 0 0 0 []
        = collect_go apiC3 (fun _ => false) (fun _ => false) 5 0 3 (0 + 1)
            (0 + 1) 0 (0 + 5) []) :=
  ⟨(collect_commit_failure_step apiC3 (fun _ => false) (fun _ => false) 5 0 3 0
      0 0 0 [] [⟨some 42, "a", "d42"⟩] (some "page=1") rfl rfl rfl rfl).1,
   (collect_commit_failure_step apiC3 (fun _ => false) (fun _ => false) 5 0 3 0
      0 0 0 [] [⟨some 42, "a", "d42"⟩] (some "page=1") rfl rfl rfl rfl).2.2⟩

/-! ## Reconciler / Auditor

`DatabaseAuditor` (src/utils/audit_tool.py). The staging table is
represented by its set of `cratejoy_id` keys — the audit queries touch
nothing else. -/

/-- The slicing loop `for i in range(0, len(id_list), batch_size)` of
`_get_db_customer_ids_in_range`, as a chunking function. `fuel` only
drives structural recursion; the caller supplies enough for the whole
list. A `step` of `0` (Python would raise `ValueError`) yields no
chunks. -/
def chunked_go {α : Type} (step : ℕ) : ℕ → List α → List (List α)
  | 0, _ => []
  | _, [] => []
  | fuel + 1, l => if step = 0 then [] else l.take step :: chunked_go step fuel (l.drop step)

def chunked {α : Type} (step : ℕ) (l : List α) : List (List α) :=
  chunked_go step (l.length + 1) l

/-- `_get_db_customer_ids_in_range`: empty candidate set short-circuits to
`set()`; otherwise the candidate ids are chunked into batches of at most
999, each batch becomes one `WHERE cratejoy_id IN (...)` query, and the
per-batch results are unioned. -/
def get_db_customer_ids_in_range (db : Finset ℕ) (expected_ids : List ℕ) :
    Finset ℕ :=
  if expected_ids.isEmpty then ∅
  else
    (chunked 999 expected_ids).foldl
      (fun acc batch => acc ∪ (batch.filter (fun i => decide (i ∈ db))).toFinset) ∅

/-- Modelled from the spec (§4.3 `contains_any`): the single unchunked
membership query on a backend without a size limit — the subset of the
candidate ids present in storage, in one pass. -/
def contains_any_unchunked (db : Finset ℕ) (expected_ids : List ℕ) : Finset ℕ :=
  (expected_ids.filter (fun i => decide (i ∈ db))).toFinset

lemma chunked_go_join {α : Type} (step : ℕ) (hstep : step ≠ 0) :
    ∀ (fuel : ℕ) (l : List α), l.length < fuel →
      (chunked_go step fuel l).flatten = l := by
  intro fuel
  induction fuel with
  | zero => intro l hl; omega
  | succ f ih =>
    intro l hl
    cases l with
    | nil => simp [chunked_go]
    | cons x xs =>
      simp only [chunked_go, if_neg hstep, List.flatten_cons]
      rw [ih]
      · exact List.take_append_drop step (x :: xs)
      · simp only [List.length_cons] at hl
        rw [List.length_drop, List.length_cons]
        omega

lemma chunked_join {α : Type} (step : ℕ) (hstep : step ≠ 0) (l : List α) :
    (chunked step l).flatten = l :=
  chunked_go_join step hstep (l.length + 1) l (Nat.lt_succ_self _)

lemma foldl_union_filter (db : Finset ℕ) (L : List (List ℕ)) (acc : Finset ℕ) :
    L.foldl
        (fun a batch => a ∪ (batch.filter (fun i => decide (i ∈ db))).toFinset)
        acc
      = acc ∪ (L.flatten.filter (fun i => decide (i ∈ db))).toFinset := by
  induction L generalizing acc with
  | nil => simp
  | cons b bl ih =>
    simp only [List.foldl_cons, List.flatten_cons, List.filter_append,
      List.toFinset_append]
    rw [ih]
    rw [Finset.union_assoc]

lemma get_db_customer_ids_in_range_eq (db : Finset ℕ) (expected_ids : List ℕ) :
    get_db_customer_ids_in_range db expected_ids
      = (expected_ids.filter (fun i => decide (i ∈ db))).toFinset := by
  unfold get_db_customer_ids_in_range
  split_ifs with h
  · rw [List.isEmpty_iff] at h
    subst h
    simp
  · rw [foldl_union_filter, chunked_join 999 (by omega)]
    simp

/-- C6: the auditor's batched containment lookup — chunks of at most 999
ids, per-chunk `IN` queries, results unioned — computes exactly the
subset of the candidate ids present in storage: it equals the single
unchunked membership query for every candidate list (the empty one
included) and every storage contents, with no pre-chunking asked of the
caller. -/
theorem get_db_customer_ids_in_range_correct (db : Finset ℕ)
    (expected_ids : List ℕ) :
    get_db_customer_ids_in_range db expected_ids
        = contains_any_unchunked db expected_ids ∧
    ∀ x : ℕ, x ∈ get_db_customer_ids_in_range db expected_ids
        ↔ x ∈ expected_ids ∧ x ∈ db := by
  constructor
  · rw [get_db_customer_ids_in_range_eq]
    rfl
  · intro x
    rw [get_db_customer_ids_in_range_eq]
    simp [List.mem_filter]

/-- A record id is added to the audit's expected set only when truthy
(`if customer_id:`), so a missing or zero id is skipped. -/
def truthy_id (c : Customer) : Option ℕ :=
  match c.id with
  | none => none
  | some n => if n = 0 then none else some n

/-- The page loop of `audit_page_range`: each page in the range is
re-fetched; a fetch failure is recorded in `api_errors` and the loop
continues with the next page; an empty page breaks out of the loop;
otherwise the page's truthy ids join the expected set.
`apiA p = none` models the fetch raising. -/
def audit_expected (apiA : ℕ → Option (List Customer)) :
    List ℕ → Finset ℕ
  | [] => ∅
  | p :: rest =>
      match apiA p with
      | none => audit_expected apiA rest
      | some [] => ∅
      | some (c :: cs) =>
          ((c :: cs).filterMap truthy_id).toFinset ∪ audit_expected apiA rest

/-- The fields of the range-audit report that the id-set comparison
fills in (`pages_audited`, `api_errors` and the mismatch fields carry
logging detail that does not feed this computation). -/
structure RangeAuditResult where
  missing_from_db : Finset ℕ
  extra_in_db : Finset ℕ
  total_db_records : ℕ
  missing_count : ℕ
  extra_count : ℕ
  deriving DecidableEq

/-- `audit_page_range(start_page, end_page)`: accumulate the expected ids
over pages `start_page..end_page`, restrict the staging store to them via
the batched lookup, and report `missing = expected − actual` and
`extra = actual − expected`. -/
def audit_page_range (apiA : ℕ → Option (List Customer)) (db : Finset ℕ)
    (start_page end_page : ℕ) : RangeAuditResult :=
  let expected := audit_expected apiA
    (List.range' start_page (end_page + 1 - start_page))
  let db_ids := get_db_customer_ids_in_range db (expected.sort (· ≤ ·))
  { missing_from_db := expected \ db_ids
    extra_in_db := db_ids \ expected
    total_db_records := db_ids.card
    missing_count := (expected \ db_ids).card
    extra_count := (db_ids \ expected).card }

/-- C9: the range audit can never report extra records: the actual id set
is the store restricted to the expected ids, hence a subset of expected,
so `extra_in_db = actual − expected` is empty and `extra_count` is 0 for
every source response and every staging store contents. -/
theorem audit_page_range_extra_empty (apiA : ℕ → Option (List Customer))
    (db : Finset ℕ) (start_page end_page : ℕ) :
    (audit_page_range apiA db start_page end_page).extra_in_db = ∅ ∧
    (audit_page_range apiA db start_page end_page).extra_count = 0 := by
  have hsub : ∀ (expected : Finset ℕ),
      get_db_customer_ids_in_range db (expected.sort (· ≤ ·)) ⊆ expected := by
    intro expected x hx
    rw [get_db_customer_ids_in_range_eq] at hx
    rw [List.mem_toFinset, List.mem_filter] at hx
    exact (Finset.mem_sort _).mp hx.1
  have h1 : (audit_page_range apiA db start_page end_page).extra_in_db = ∅ := by
    unfold audit_page_range
    simp only
    rw [Finset.sdiff_eq_empty_iff_subset]
    exact hsub _
  refine ⟨h1, ?_⟩
  have : (audit_page_range apiA db start_page end_page).extra_count
      = (audit_page_range apiA db start_page end_page).extra_in_db.card := by
    unfold audit_page_range
    simp only
  rw [this, h1]
  simp

/-! ## Density overview

`get_database_stats_by_page_range(pages_per_chunk)`: fetch all staged ids
sorted ascending (`SELECT cratejoy_id ... ORDER BY cratejoy_id`), then
slice that list by position — `for i in range(0, len(customer_ids),
pages_per_chunk * 1000)` — into chunks of `pages_per_chunk * 1000`
entries, reporting for each slice the estimated page range `i // 1000 ..
i // 1000 + pages_per_chunk - 1`, the slice's length as `record_count`,
its first and last ids, and `expected_count = pages_per_chunk * 1000`. -/

structure PageRangeStat where
  page_range_start : ℕ
  page_range_end : ℕ
  record_count : ℕ
  first_id : ℕ
  last_id : ℕ
  expected_count : ℕ
  deriving DecidableEq, Repr

/-- The slicing loop. `fuel` only drives structural recursion; the
wrapper supplies enough for the whole list. `ppc = 0` (Python: `range`
with step 0 raises) yields no stats. -/
def page_stats_go (ppc : ℕ) : ℕ → List ℕ → ℕ → List PageRangeStat
  | 0, _, _ => []
  | _, [], _ => []
  | fuel + 1, ids, i =>
      if ppc = 0 then []
      else
        let chunk := ids.take (ppc * 1000)
        { page_range_start := i / 1000
          page_range_end := i / 1000 + ppc - 1
          record_count := chunk.length
          first_id := ids.headD 0
          last_id := chunk.getLastD 0
          expected_count := ppc * 1000 }
          :: page_stats_go ppc fuel (ids.drop (ppc * 1000)) (i + ppc * 1000)

def get_database_stats_by_page_range (ids : List ℕ) (ppc : ℕ) :
    List PageRangeStat :=
  page_stats_go ppc (ids.length + 1) ids 0

/-- The staged ids `{1..2000} \ {500..599}` in ascending order: a
100-wide contiguous gap entirely inside the id region of the first
assumed page (ids 1–1000 at page size 1000). -/
def idsC8 : List ℕ :=
  List.range' 1 499 ++ List.range' 600 1401

/-- C8 (as stated) is false: with staged ids `{1..2000} \ {500..599}` and
one page per bucket, the bucket whose id span (`first_id = 1` to
`last_id = 1100`) covers the missing interval reports
`record_count = 1000 = expected_count` — a zero delta, not a negative
one; the deficit surfaces only in the final bucket, far from the gap
region. -/
lemma page_stats_go_nil (ppc fuel i : ℕ) : page_stats_go ppc fuel [] i = [] := by
  cases fuel <;> simp [page_stats_go]

lemma page_stats_go_cons_eq (ppc : ℕ) (hppc : ppc ≠ 0) (fuel : ℕ)
    (hfuel : fuel ≠ 0) (ids : List ℕ) (hne : ids ≠ []) (i : ℕ) :
    page_stats_go ppc fuel ids i
      = { page_range_start := i / 1000
          page_range_end := i / 1000 + ppc - 1
          record_count := (ids.take (ppc * 1000)).length
          first_id := ids.headD 0
          last_id := (ids.take (ppc * 1000)).getLastD 0
          expected_count := ppc * 1000 }
        :: page_stats_go ppc (fuel - 1) (ids.drop (ppc * 1000))
            (i + ppc * 1000) := by
  obtain ⟨f, rfl⟩ := Nat.exists_eq_succ_of_ne_zero hfuel
  cases ids with
  | nil => exact absurd rfl hne
  | cons x xs => simp [page_stats_go, hppc]

theorem page_stats_counterexample :
    get_database_stats_by_page_range idsC8 1
      = [⟨0, 0, 1000, 1, 1100, 1000⟩, ⟨1, 1, 900, 1101, 2000, 1000⟩] ∧
    (500 : ℕ) ∉ idsC8 ∧ (499 : ℕ) ∈ idsC8 ∧ (600 : ℕ) ∈ idsC8 := by
  have hsplit : List.range' 600 1401 = List.range' 600 501 ++ List.range' 1101 900 := by
    have h := List.range'_append 600 501 900 1
    norm_num at h
    exact h.symm
  have htake : idsC8.take 1000 = List.range' 1 499 ++ List.range' 600 501 := by
    unfold idsC8
    rw [List.take_append_eq_append_take, List.take_of_length_le (by simp),
      List.length_range']
    norm_num
    rw [hsplit, List.take_left' (by simp)]
  have hdrop : idsC8.drop 1000 = List.range' 1101 900 := by
    unfold idsC8
    rw [List.drop_append_eq_append_drop, List.drop_eq_nil_of_le (by simp),
      List.length_range']
    norm_num
    rw [hsplit, List.drop_left' (by simp)]
  have hlen1000 : (idsC8.take 1000).length = 1000 := by
    rw [htake]
    simp
  have hlast : (idsC8.take 1000).getLastD 0 = 1100 := by
    rw [htake, List.getLastD_eq_getLast?,
      List.getLast?_append_of_ne_nil _ (by simp [List.range'_eq_nil]),
      List.getLast?_range']
    norm_num
  have hhead : idsC8.headD 0 = 1 := rfl
  have hlen : idsC8.length = 1900 := by
    simp [idsC8]
  refine ⟨?_, by simp [idsC8, List.mem_range'_1],
    by simp [idsC8, List.mem_range'_1], by simp [idsC8, List.mem_range'_1]⟩
  unfold get_database_stats_by_page_range
  rw [page_stats_go_cons_eq 1 one_ne_zero _ (by omega) _
    (by simp [idsC8, List.range'_eq_nil]) 0]
  simp only [one_mul, hlen1000, hlast, hhead, hdrop, hlen]
  norm_num
  rw [page_stats_go_cons_eq 1 one_ne_zero _ (by norm_num) _
    (by simp [List.range'_eq_nil]) 1000]
  simp only [one_mul, List.take_of_length_le (by simp : (List.range' 1101 900).length ≤ 1000),
    List.drop_eq_nil_of_le (by simp : (List.range' 1101 900).length ≤ 1000),
    page_stats_go_nil, List.length_range', List.getLastD_eq_getLast?,
    List.getLast?_range']
  norm_num
  rfl

lemma page_stats_go_nonlast_full (ppc : ℕ) :
    ∀ (fuel : ℕ) (ids : List ℕ) (i : ℕ),
      ((page_stats_go ppc fuel ids i).dropLast.all
        (fun s => s.record_count == s.expected_count)) = true := by
  intro fuel
  induction fuel with
  | zero =>
    intro ids i
    simp [page_stats_go]
  | succ f ih =>
    intro ids i
    cases ids with
    | nil => simp [page_stats_go]
    | cons x xs =>
      by_cases hppc : ppc = 0
      · simp [page_stats_go, hppc]
      · simp only [page_stats_go, if_neg hppc]
        cases hrest : page_stats_go ppc f ((x :: xs).drop (ppc * 1000))
            (i + ppc * 1000) with
        | nil => simp
        | cons s tl =>
          rw [List.dropLast_cons_of_ne_nil (by simp), List.all_cons]
          have hdropne : (x :: xs).drop (ppc * 1000) ≠ [] := by
            intro hdrop
            rw [hdrop] at hrest
            cases f <;> simp [page_stats_go] at hrest
          have hlen : ppc * 1000 < (x :: xs).length := by
            by_contra hc
            push_neg at hc
            exact hdropne (List.drop_eq_nil_of_le hc)
          have hfull : ((x :: xs).take (ppc * 1000)).length = ppc * 1000 := by
            rw [List.length_take]
            omega
          have h2 := ih ((x :: xs).drop (ppc * 1000)) (i + ppc * 1000)
          rw [hrest] at h2
          rw [Bool.and_eq_true]
          refine ⟨?_, h2⟩
          simp [hfull]

/-- C8 (amended): the density overview slices the sorted staged-id list
by position, so every bucket except possibly the final one reports
`record_count` exactly equal to `expected_count` (delta 0) no matter
which ids are missing; a contiguous missing interval therefore does not
produce a negative delta in the bucket whose id span covers it — a
deficit can appear only in the final bucket, while interior gaps are
visible only through `first_id`/`last_id` drift. -/
theorem get_database_stats_nonlast_full (ids : List ℕ) (ppc : ℕ) :
    ((get_database_stats_by_page_range ids ppc).dropLast.all
      (fun s => s.record_count == s.expected_count)) = true :=
  page_stats_go_nonlast_full ppc (ids.length + 1) ids 0

end CratejoyMigrator
